import Mathlib

/-!
Shallow embedding of the `tracing-configuration` crate's core:
the declarative configuration structs (`src/lib.rs`), the writer
resolution and deferred-error machinery (`src/writer.rs`), the
timestamp dispatch (`src/time.rs`) and the format dispatch
(`src/format.rs`).

Rust strings and paths are embedded as `List Char`; machine-level
side effects (opening files, building the rolling appender) are
embedded as an explicit environment value threaded through the
resolution function.
-/

namespace TracingConfig

/-- Rust `str` / `String` / `PathBuf` contents, embedded as a list of characters. -/
abbrev Str := List Char

/-! ## Configuration structs (src/lib.rs) -/

/-- `enum FileOpenBehaviour { Truncate (default), Append }` from src/lib.rs. -/
inductive FileOpenBehaviour where
  | Truncate
  | Append
deriving DecidableEq, Repr

instance : Inhabited FileOpenBehaviour := ⟨.Truncate⟩

/-- `enum BackpressureBehaviour { Drop, Block }` from src/lib.rs. -/
inductive BackpressureBehaviour where
  | Drop
  | Block
deriving DecidableEq, Repr

/-- `struct NonBlocking { buffer_length: Option<usize>, behaviour: Option<BackpressureBehaviour> }`. -/
structure NonBlocking where
  buffer_length : Option Nat
  behaviour : Option BackpressureBehaviour
deriving DecidableEq, Repr

/-- `struct File { path, behaviour, non_blocking }` from src/lib.rs. -/
structure File where
  path : Str
  behaviour : FileOpenBehaviour
  non_blocking : Option NonBlocking
deriving DecidableEq, Repr

/-- `enum Rotation { Minutely, Hourly, Daily, Never (default) }` from src/lib.rs. -/
inductive Rotation where
  | Minutely
  | Hourly
  | Daily
  | Never
deriving DecidableEq, Repr

instance : Inhabited Rotation := ⟨.Never⟩

/-- `struct Roll { limit, prefix, suffix, rotation }` from src/lib.rs.
The filename prefix/suffix fields are named `pfx`/`sfx` here. -/
structure Roll where
  limit : Option Nat
  pfx : Option Str
  sfx : Option Str
  rotation : Option Rotation
deriving DecidableEq, Repr

instance : Inhabited Roll := ⟨⟨none, none, none, none⟩⟩

/-- `struct Rolling { directory, roll, non_blocking }` from src/lib.rs. -/
structure Rolling where
  directory : Str
  roll : Option Roll
  non_blocking : Option NonBlocking
deriving DecidableEq, Repr

/-- `enum Writer { Null, Stdout (default), Stderr, File(File), Rolling(Rolling) }`. -/
inductive Writer where
  | Null
  | Stdout
  | Stderr
  | File (f : File)
  | Rolling (r : Rolling)
deriving DecidableEq, Repr

/-- `struct Json { flatten_event, current_span, span_list }` from src/lib.rs. -/
structure Json where
  flatten_event : Option Bool
  current_span : Option Bool
  span_list : Option Bool
deriving DecidableEq, Repr

instance : Inhabited Json := ⟨⟨none, none, none⟩⟩

/-- `enum Formatter { Full (default), Compact, Pretty, Json(Option<Json>) }`. -/
inductive Formatter where
  | Full
  | Compact
  | Pretty
  | Json (j : Option Json)
deriving DecidableEq, Repr

instance : Inhabited Formatter := ⟨.Full⟩

/-- `enum Timer { None, Local(Option<String>), Utc(Option<String>), System (default), Uptime }`. -/
inductive Timer where
  | None
  | Local (pattern : Option Str)
  | Utc (pattern : Option Str)
  | System
  | Uptime
deriving DecidableEq, Repr

instance : Inhabited Timer := ⟨.System⟩

/-- `struct Format { ansi, target, level, thread_ids, thread_names, file, line_number,
formatter, timer, span_events }` from src/lib.rs; `span_events` is destructured and
ignored by the event-format conversion (src/format.rs line 76). -/
structure Format where
  ansi : Option Bool
  target : Option Bool
  level : Option Bool
  thread_ids : Option Bool
  thread_names : Option Bool
  file : Option Bool
  line_number : Option Bool
  formatter : Option Formatter
  timer : Option Timer
  span_events : Option Nat
deriving DecidableEq, Repr

/-! ## Writer directive parsing (`impl FromStr for Writer`, src/lib.rs lines 499-525)

The winnow combinators are embedded directly: a tag parser consumes a literal
prefix, `rest` consumes everything remaining, `verify` fails the branch (so
`alt` falls through), and the outer `.parse` demands the chosen branch to have
consumed the whole input. -/

/-- `struct ParseError(&'static str)` from src/lib.rs. -/
structure ParseError where
  help : Str
deriving DecidableEq, Repr

/-- `Writer::PARSE_HELP`. -/
def Writer.PARSE_HELP : Str := "<null | stdout | stderr | file=FILE | rolling=DIRECTORY>".toList

/-- winnow literal-tag parser: consume `t` as a prefix of `s` and return the rest. -/
def tag (t s : Str) : Option Str :=
  if t.isPrefixOf s then some (s.drop t.length) else none

/-- The `alt((...))` body of `Writer`'s parser: try each branch in order and
return the produced `Writer` together with the input that branch left
unconsumed.  The `file=` branch is `preceded("file=", rest).verify(|it| !it.is_empty())`;
when the verification fails the branch backtracks and `alt` moves on. -/
def Writer.altStep (s : Str) : Option (Writer × Str) :=
  ((tag "null".toList s).map fun r => (Writer.Null, r)) <|>
  ((tag "none".toList s).map fun r => (Writer.Null, r)) <|>
  ((tag "stdout".toList s).map fun r => (Writer.Stdout, r)) <|>
  ((tag "stderr".toList s).map fun r => (Writer.Stderr, r)) <|>
  ((tag "file=".toList s).bind fun r =>
    if r = [] then none
    else some (Writer.File ⟨r, .Truncate, none⟩, [])) <|>
  ((tag "rolling=".toList s).map fun r =>
    (Writer.Rolling ⟨r, none, none⟩, []))

/-- `impl FromStr for Writer` (src/lib.rs): run the alternation, then the
outer `.parse(s)` rejects any leftover input; all failures are collapsed
into `ParseError(Writer::PARSE_HELP)`. -/
def Writer.fromStr (s : Str) : Except ParseError Writer :=
  match Writer.altStep s with
  | some (w, r) => if r = [] then .ok w else .error ⟨Writer.PARSE_HELP⟩
  | none => .error ⟨Writer.PARSE_HELP⟩

/-! ## I/O errors, `Arc`, and the filesystem environment (src/writer.rs)

`std::io::Error` is embedded with its kind and an optional wrapped source
(`io_extra::context` builds exactly such a wrapper, preserving the kind).
`Arc<T>` is embedded as an allocation address paired with the payload;
`Arc::clone` hands back the very same allocation. -/

/-- A `std::io::ErrorKind`. -/
inductive ErrorKind where
  | notFound
  | permissionDenied
  | other
deriving DecidableEq, Repr

/-- `std::io::Error`: either a raw OS error, or `io::Error::new(kind, inner)`
carrying a message and wrapping a source error. -/
inductive IoError where
  | os (kind : ErrorKind)
  | ctx (kind : ErrorKind) (msg : Str) (source : IoError)
deriving DecidableEq, Repr

/-- `io::Error::kind`. -/
def IoError.kind : IoError → ErrorKind
  | .os k => k
  | .ctx k _ _ => k

/-- `std::sync::Arc<T>`: a heap allocation (identified by its address) holding `val`. -/
structure Arc (α : Type) where
  addr : Nat
  val : α
deriving DecidableEq, Repr

/-- `Arc::clone`: a new handle to the **same** allocation. -/
def Arc.clone (a : Arc α) : Arc α := a

/-- `io_extra::context(e, msg)`: wrap `e` with a message, keeping `e.kind()`. -/
def io_extra.context (e : IoError) (msg : Str) : IoError :=
  .ctx e.kind msg e

/-- `pub struct Error(io::Error)` from src/writer.rs. -/
structure Error where
  inner : IoError
deriving DecidableEq, Repr

/-- State of a path in the embedded filesystem. -/
inductive FsEntry where
  | absent
  | file (contents : Str)
  | denied
deriving DecidableEq, Repr

/-- The filesystem: what each path currently holds. -/
abbrev Fs := Str → FsEntry

/-- Point update of the filesystem. -/
def Fs.update (fs : Fs) (p : Str) (e : FsEntry) : Fs :=
  fun q => if q = p then e else fs q

/-- An open `std::fs::File` handle: the path it refers to, and whether it was
opened in append mode. -/
structure FileHandle where
  path : Str
  append : Bool
deriving DecidableEq, Repr

/-- `std::fs::File::create(path)`: create-or-truncate.  Fails only on denied
access; otherwise the path now holds an empty file. -/
def fsCreate (fs : Fs) (p : Str) : Except IoError (FileHandle × Fs) :=
  match fs p with
  | .denied => .error (.os .permissionDenied)
  | _ => .ok (⟨p, false⟩, fs.update p (.file []))

/-- `std::fs::File::options().append(true).open(path)`: append-only open of an
**existing** file; a missing file is `NotFound`, never created. -/
def fsOpenAppend (fs : Fs) (p : Str) : Except IoError (FileHandle × Fs) :=
  match fs p with
  | .denied => .error (.os .permissionDenied)
  | .absent => .error (.os .notFound)
  | .file _ => .ok (⟨p, true⟩, fs)

/-! ## The non-blocking (async delivery) builder (tracing_appender)

`NonBlockingBuilder` is external library state driven by the crate's
`NonBlocking::build` (src/writer.rs lines 73-93).  Its documented defaults:
`buffered_lines_limit = DEFAULT_BUFFERED_LINES_LIMIT (128_000)`, `lossy = true`.
The bounded queue serviced by the worker thread is modelled as a small-step
`enqueue` on an explicit channel state, per tracing_appender's documented
semantics: a full lossy queue discards the record and counts it, a full
non-lossy queue makes the producer wait (state unchanged until space frees). -/

/-- `tracing_appender::non_blocking::NonBlockingBuilder` state. -/
structure NonBlockingBuilder where
  buffered_lines_limit : Nat
  lossy : Bool
deriving DecidableEq, Repr

/-- `NonBlockingBuilder::default()`: 128000 buffered lines, lossy. -/
def NonBlockingBuilder.default : NonBlockingBuilder :=
  ⟨128000, true⟩

/-- A successfully opened synchronous destination that the worker wraps. -/
inductive Dest where
  | file (h : FileHandle)
  | rolling (h : Nat)
deriving DecidableEq, Repr

/-- The `tracing_appender::non_blocking::NonBlocking` handle: the finished
builder configuration plus the wrapped destination. -/
structure NBHandle where
  cfg : NonBlockingBuilder
  dest : Dest
deriving DecidableEq, Repr

/-- `tracing_appender::non_blocking::WorkerGuard`: owns the background worker
(its queue configuration and the destination the worker drains into). -/
structure WorkerGuard where
  cfg : NonBlockingBuilder
  dest : Dest
deriving DecidableEq, Repr

/-- `impl crate::NonBlocking { fn build<T>(&self, writer: T) }`
(src/writer.rs lines 73-93): start from the default builder, override the
buffered-lines limit when `buffer_length` is present, set lossiness from
`behaviour` (`Block -> lossy(false)`, `Drop -> lossy(true)`, absent -> keep
default), and finish with the writer. -/
def NonBlocking.build (self : NonBlocking) (writer : Dest) : NBHandle × WorkerGuard :=
  let builder := NonBlockingBuilder.default
  let builder :=
    match self.buffer_length with
    | some it => { builder with buffered_lines_limit := it }
    | none => builder
  let builder :=
    match self.behaviour with
    | some .Block => { builder with lossy := false }
    | some .Drop => { builder with lossy := true }
    | none => builder
  (⟨builder, writer⟩, ⟨builder, writer⟩)

/-- The bounded delivery queue owned by the worker. -/
structure Channel where
  cap : Nat
  buf : List Str
  dropped : Nat
deriving DecidableEq, Repr

/-- The queue as created by `finish`: capacity from the builder, empty, no drops. -/
def Channel.new (cfg : NonBlockingBuilder) : Channel :=
  ⟨cfg.buffered_lines_limit, [], 0⟩

/-- Outcome of one producer enqueue attempt. -/
inductive EnqueueEffect where
  | enqueued
  | dropped
  | blocked
deriving DecidableEq, Repr

/-- One producer step against the queue.  When the queue has room the record
is appended.  On a full queue: a lossy queue discards the record and bumps
the dropped-record counter; a non-lossy queue leaves the state untouched and
reports that the producer is blocked waiting for space (the record is kept by
the producer, never lost). -/
def Channel.enqueue (lossy : Bool) (q : Channel) (r : Str) : Channel × EnqueueEffect :=
  if q.buf.length < q.cap then ({ q with buf := q.buf ++ [r] }, .enqueued)
  else if lossy then ({ q with dropped := q.dropped + 1 }, .dropped)
  else (q, .blocked)

/-- The consumer (worker thread) takes the oldest record out of the queue. -/
def Channel.dequeue (q : Channel) : Channel :=
  { q with buf := q.buf.tail }

/-! ## The rolling-appender builder (tracing_appender) -/

/-- `tracing_appender::rolling::Rotation` constants. -/
inductive RotationKind where
  | MINUTELY
  | HOURLY
  | DAILY
  | NEVER
deriving DecidableEq, Repr

/-- `tracing_appender::rolling::Builder` state assembled by
`MakeWriterInner::new`'s Rolling arm (src/writer.rs lines 140-163). -/
structure RollingBuilder where
  max_log_files : Option Nat
  filename_pfx : Option Str
  filename_sfx : Option Str
  rotation : RotationKind
deriving DecidableEq, Repr

/-- `RollingFileAppender::builder()`: no limit, no prefix/suffix, rotation `NEVER`. -/
def RollingBuilder.default : RollingBuilder :=
  ⟨none, none, none, .NEVER⟩

/-- `tracing_appender::rolling::InitError`: its optional `io::Error` source. -/
abbrev InitError := Option IoError

/-- Assemble the rolling builder exactly as the Rolling arm of
`MakeWriterInner::new` does: unwrap `roll` (default when absent), apply
`max_log_files` / `filename_prefix` / `filename_suffix` only when present,
and always set the rotation mapped from the config enum (default `Never`). -/
def Rolling.builder (r : Rolling) : RollingBuilder :=
  let roll := r.roll.getD default
  let b := RollingBuilder.default
  let b :=
    match roll.limit with
    | some limit => { b with max_log_files := some limit }
    | none => b
  let b :=
    match roll.pfx with
    | some p => { b with filename_pfx := some p }
    | none => b
  let b :=
    match roll.sfx with
    | some s => { b with filename_sfx := some s }
    | none => b
  match roll.rotation.getD default with
  | .Minutely => { b with rotation := .MINUTELY }
  | .Hourly => { b with rotation := .HOURLY }
  | .Daily => { b with rotation := .DAILY }
  | .Never => { b with rotation := .NEVER }

/-! ## Writer resolution (src/writer.rs lines 95-201) -/

/-- The environment the resolution runs in: the filesystem, the outcome of
`RollingFileAppender::builder().build(directory)` (external library code that
validates/creates the directory), and the address the allocator hands to
`Arc::new` for a deferred error. -/
structure Env where
  fs : Fs
  rollingBuild : Str → RollingBuilder → Except InitError Nat
  arcAddr : Nat

/-- `enum GuardInner { NonBlocking { _guard: WorkerGuard } }` from src/writer.rs. -/
inductive GuardInner where
  | NonBlocking (g : WorkerGuard)
deriving DecidableEq, Repr

/-- `enum MakeWriterInner` from src/writer.rs. -/
inductive MakeWriterInner where
  | Null
  | NonBlocking (h : NBHandle)
  | Stdout
  | Stderr
  | File (h : FileHandle)
  | Rolling (h : Nat)
  | Deferred (e : Arc IoError)
deriving DecidableEq, Repr

/-- The file-open `match` inside the File arm of `MakeWriterInner::new`:
`Truncate => File::create(&path)`, `Append => File::options().append(true).open(&path)`. -/
def File.open (fs : Fs) (f : File) : Except IoError (FileHandle × Fs) :=
  match f.behaviour with
  | .Truncate => fsCreate fs f.path
  | .Append => fsOpenAppend fs f.path

/-- The context message `couldn't open log file {path}`. -/
def fileErrMsg (path : Str) : Str :=
  "couldn't open log file ".toList ++ path

/-- The context message `couldn't start logging in directory {directory}`. -/
def rollingErrMsg (directory : Str) : Str :=
  "couldn't start logging in directory ".toList ++ directory

/-- The error massaging in the Rolling arm: pull the `io::Error` kind out of
the `InitError`'s source (defaulting to `Other`), rewrap as an `io::Error`
of that kind, and attach the directory context message. -/
def rollingErr (directory : Str) (e : InitError) : IoError :=
  let kind := (e.map IoError.kind).getD .other
  io_extra.context
    (match e with
     | some src => .ctx kind [] src
     | none => .os kind)
    (rollingErrMsg directory)

/-- `MakeWriterInner::new(writer, defer)` (src/writer.rs lines 96-200).
Returns the writer factory, the optional worker guard, and the filesystem
after any open-side effect. -/
def MakeWriterInner.new (writer : Writer) (defer : Bool) (env : Env) :
    Except Error ((MakeWriterInner × Option GuardInner) × Fs) :=
  match writer with
  | .File f =>
    match File.open env.fs f with
    | .ok (it, fs') =>
      match f.non_blocking with
      | some nb =>
        let (nbh, g) := nb.build (.file it)
        .ok ((.NonBlocking nbh, some (.NonBlocking g)), fs')
      | none => .ok ((.File it, none), fs')
    | .error e =>
      let e := io_extra.context e (fileErrMsg f.path)
      match defer with
      | true => .ok ((.Deferred ⟨env.arcAddr, e⟩, none), env.fs)
      | false => .error ⟨e⟩
  | .Rolling r =>
    match env.rollingBuild r.directory (Rolling.builder r) with
    | .ok it =>
      match r.non_blocking with
      | some nb =>
        let (nbh, g) := nb.build (.rolling it)
        .ok ((.NonBlocking nbh, some (.NonBlocking g)), env.fs)
      | none => .ok ((.Rolling it, none), env.fs)
    | .error e =>
      let e := rollingErr r.directory e
      match defer with
      | true => .ok ((.Deferred ⟨env.arcAddr, e⟩, none), env.fs)
      | false => .error ⟨e⟩
  | .Stdout => .ok ((.Stdout, none), env.fs)
  | .Stderr => .ok ((.Stderr, none), env.fs)
  | .Null => .ok ((.Null, none), env.fs)

/-- `MakeWriter::new` (src/writer.rs lines 43-46): resolve with `defer = true`
and `.expect("errors have been deferred")`.  The `expect` is embedded as
`Except.toOption`: a panic would surface as `none`. -/
def MakeWriter.new (writer : Writer) (env : Env) :
    Option ((MakeWriterInner × Option GuardInner) × Fs) :=
  (MakeWriterInner.new writer true env).toOption

/-- `MakeWriter::try_new` (src/writer.rs lines 51-53): resolve with `defer = false`. -/
def MakeWriter.try_new (writer : Writer) (env : Env) :
    Except Error ((MakeWriterInner × Option GuardInner) × Fs) :=
  MakeWriterInner.new writer false env

/-! ## Per-write behaviour (src/writer.rs lines 217-267) -/

/-- `enum WriterInner<'a>` from src/writer.rs: the per-write handle borrowed
from the factory by `make_writer`. -/
inductive WriterInner where
  | Null
  | NonBlocking (h : NBHandle)
  | Stdout
  | Stderr
  | File (h : FileHandle)
  | Rolling (h : Nat)
  | Deferred (e : Arc IoError)
deriving DecidableEq, Repr

/-- `impl MakeWriter for MakeWriterInner` (src/writer.rs lines 253-267):
each factory variant hands out the matching writer variant. -/
def MakeWriterInner.make_writer : MakeWriterInner → WriterInner
  | .NonBlocking it => .NonBlocking it
  | .Stdout => .Stdout
  | .Stderr => .Stderr
  | .File it => .File it
  | .Rolling it => .Rolling it
  | .Null => .Null
  | .Deferred it => .Deferred it

/-- The error value a failed write reports: `io::Error::new(kind, cause)`,
where the cause may be a cloned `Arc<io::Error>` (the deferred construction
error) or an OS-level condition without one. -/
structure WriteError where
  kind : ErrorKind
  cause : Option (Arc IoError)
deriving DecidableEq, Repr

/-- `impl io::Write for WriterInner::write` (src/writer.rs lines 228-238).
`Null` is `io::sink()`: accepts and discards the whole buffer.  The
OS-backed variants delegate the buffer to their underlying writer, whose
outcome is the `os` oracle.  `Deferred` always fails with
`io::Error::new(e.kind(), Arc::clone(e))`. -/
def WriterInner.write (w : WriterInner) (buf : Str)
    (os : Except WriteError Nat) : Except WriteError Nat :=
  match w with
  | .NonBlocking _ => os
  | .Stdout => os
  | .Stderr => os
  | .File _ => os
  | .Rolling _ => os
  | .Null => .ok buf.length
  | .Deferred e => .error ⟨(e.val).kind, some (Arc.clone e)⟩

/-- `impl io::Write for WriterInner::flush` (src/writer.rs lines 240-250). -/
def WriterInner.flush (w : WriterInner)
    (os : Except WriteError Unit) : Except WriteError Unit :=
  match w with
  | .NonBlocking _ => os
  | .Stdout => os
  | .Stderr => os
  | .File _ => os
  | .Rolling _ => os
  | .Null => .ok ()
  | .Deferred e => .error ⟨(e.val).kind, some (Arc.clone e)⟩

/-! ## Timestamp dispatch (src/time.rs) -/

/-- A `ChronoLocal` / `ChronoUtc` formatter: either the RFC-3339 constant or a
custom chrono pattern (`ChronoLocal::new(pattern)`). -/
inductive ChronoFmt where
  | rfc_3339
  | custom (pattern : Str)
deriving DecidableEq, Repr

/-- `tracing_subscriber::fmt::time::Uptime`: remembers the `Instant` it was
built from; instants are modelled as nanosecond counts of a monotonic clock. -/
structure Uptime where
  epoch : Nat
deriving DecidableEq, Repr

/-- Elapsed time the `Uptime` formatter renders when asked at instant `t`. -/
def Uptime.elapsed (u : Uptime) (t : Nat) : Nat :=
  t - u.epoch

/-- `enum FormatTimeInner` from src/time.rs: the five closed time-source variants. -/
inductive FormatTimeInner where
  | None
  | Local (f : ChronoFmt)
  | Utc (f : ChronoFmt)
  | System
  | Uptime (u : Uptime)
deriving DecidableEq, Repr

/-- `impl From<crate::Timer> for FormatTimeInner` (src/time.rs lines 31-49).
`now` is the monotonic instant `Instant::now()` reads during the conversion.
A `Some("%+")` or `None` pattern selects `rfc_3339()`; any other pattern is
passed to `ChronoLocal::new` / `ChronoUtc::new` as given. -/
def FormatTimeInner.ofTimer (value : Timer) (now : Nat) : FormatTimeInner :=
  match value with
  | .None => .None
  | .Local it =>
    .Local (match it with
      | some p => if p = "%+".toList then .rfc_3339 else .custom p
      | none => .rfc_3339)
  | .Utc it =>
    .Utc (match it with
      | some p => if p = "%+".toList then .rfc_3339 else .custom p
      | none => .rfc_3339)
  | .System => .System
  | .Uptime => .Uptime (Uptime.mk now)

/-! ## Event-format dispatch (src/format.rs) -/

/-- The display toggles carried by a `tracing_subscriber::fmt::format::Format`,
together with its timer.  `Format::default()` displays target and level, hides
thread ids/names and file/line, and enables ansi. -/
structure FormatParams where
  timer : FormatTimeInner
  ansi : Bool
  target : Bool
  level : Bool
  thread_ids : Bool
  thread_names : Bool
  file : Bool
  line_number : Bool
deriving DecidableEq, Repr

/-- `Format::default().with_timer(timer)`: library defaults with the timer swapped in. -/
def FormatParams.defaultWithTimer (t : FormatTimeInner) : FormatParams :=
  ⟨t, true, true, true, false, false, false, false⟩

/-- The three JSON sub-options of `tracing_subscriber`'s `Format<Json, _>`.
Library defaults: `flatten_event = false`, `display_current_span = true`,
`display_span_list = true`. -/
structure JsonOpts where
  flatten_event : Bool
  current_span : Bool
  span_list : Bool
deriving DecidableEq, Repr

/-- `Format::json()`'s starting sub-options. -/
def JsonOpts.default : JsonOpts :=
  ⟨false, true, true⟩

/-- The `orig.json()` arm of the conversion: apply each of the three optional
JSON sub-toggles only when present (src/format.rs lines 84-101). -/
def JsonOpts.ofConfig (j : Option Json) : JsonOpts :=
  let cfg := j.getD (Inhabited.default : Json)
  let this := JsonOpts.default
  let this :=
    match cfg.flatten_event with
    | some it => { this with flatten_event := it }
    | none => this
  let this :=
    match cfg.current_span with
    | some it => { this with current_span := it }
    | none => this
  match cfg.span_list with
  | some it => { this with span_list := it }
  | none => this

/-- `enum FormatEventInner` from src/format.rs: the four closed layout variants,
each carrying the library format state. -/
inductive FormatEventInner where
  | Full (p : FormatParams)
  | Compact (p : FormatParams)
  | Pretty (p : FormatParams)
  | Json (p : FormatParams) (j : JsonOpts)
deriving DecidableEq, Repr

/-- The `apply!(this.with_ansi(ansi))` expansion: match on the active variant
and rebuild the same variant with the toggle applied. -/
def FormatEventInner.with_ansi : FormatEventInner → Bool → FormatEventInner
  | .Full p, b => .Full { p with ansi := b }
  | .Compact p, b => .Compact { p with ansi := b }
  | .Pretty p, b => .Pretty { p with ansi := b }
  | .Json p j, b => .Json { p with ansi := b } j

/-- `apply!(this.with_target(target))`. -/
def FormatEventInner.with_target : FormatEventInner → Bool → FormatEventInner
  | .Full p, b => .Full { p with target := b }
  | .Compact p, b => .Compact { p with target := b }
  | .Pretty p, b => .Pretty { p with target := b }
  | .Json p j, b => .Json { p with target := b } j

/-- `apply!(this.with_level(level))`. -/
def FormatEventInner.with_level : FormatEventInner → Bool → FormatEventInner
  | .Full p, b => .Full { p with level := b }
  | .Compact p, b => .Compact { p with level := b }
  | .Pretty p, b => .Pretty { p with level := b }
  | .Json p j, b => .Json { p with level := b } j

/-- `apply!(this.with_thread_ids(thread_ids))`. -/
def FormatEventInner.with_thread_ids : FormatEventInner → Bool → FormatEventInner
  | .Full p, b => .Full { p with thread_ids := b }
  | .Compact p, b => .Compact { p with thread_ids := b }
  | .Pretty p, b => .Pretty { p with thread_ids := b }
  | .Json p j, b => .Json { p with thread_ids := b } j

/-- `apply!(this.with_thread_names(thread_names))`. -/
def FormatEventInner.with_thread_names : FormatEventInner → Bool → FormatEventInner
  | .Full p, b => .Full { p with thread_names := b }
  | .Compact p, b => .Compact { p with thread_names := b }
  | .Pretty p, b => .Pretty { p with thread_names := b }
  | .Json p j, b => .Json { p with thread_names := b } j

/-- `apply!(this.with_file(file))`. -/
def FormatEventInner.with_file : FormatEventInner → Bool → FormatEventInner
  | .Full p, b => .Full { p with file := b }
  | .Compact p, b => .Compact { p with file := b }
  | .Pretty p, b => .Pretty { p with file := b }
  | .Json p j, b => .Json { p with file := b } j

/-- `apply!(this.with_line_number(line_number))`. -/
def FormatEventInner.with_line_number : FormatEventInner → Bool → FormatEventInner
  | .Full p, b => .Full { p with line_number := b }
  | .Compact p, b => .Compact { p with line_number := b }
  | .Pretty p, b => .Pretty { p with line_number := b }
  | .Json p j, b => .Json { p with line_number := b } j

/-- The `if let Some(arg)` wrapper inside the `apply!` expansion: apply the
toggle only when the config value is present. -/
def applyOpt (g : FormatEventInner → Bool → FormatEventInner)
    (e : FormatEventInner) : Option Bool → FormatEventInner
  | some b => g e b
  | none => e

/-- `impl From<crate::Format> for FormatEventInner` (src/format.rs lines 64-127).
`now` is the instant read if the timer conversion builds an `Uptime`. -/
def FormatEventInner.ofFormat (value : Format) (now : Nat) : FormatEventInner :=
  let orig := FormatParams.defaultWithTimer
    (FormatTimeInner.ofTimer (value.timer.getD default) now)
  let this :=
    match value.formatter.getD default with
    | .Full => FormatEventInner.Full orig
    | .Compact => FormatEventInner.Compact orig
    | .Pretty => FormatEventInner.Pretty orig
    | .Json it => FormatEventInner.Json orig (JsonOpts.ofConfig it)
  let this := applyOpt FormatEventInner.with_ansi this value.ansi
  let this := applyOpt FormatEventInner.with_target this value.target
  let this := applyOpt FormatEventInner.with_level this value.level
  let this := applyOpt FormatEventInner.with_thread_ids this value.thread_ids
  let this := applyOpt FormatEventInner.with_thread_names this value.thread_names
  let this := applyOpt FormatEventInner.with_file this value.file
  applyOpt FormatEventInner.with_line_number this value.line_number

/-- The four event-format layout tags. -/
inductive LayoutTag where
  | Full
  | Compact
  | Pretty
  | Json
deriving DecidableEq, Repr

/-- Which of the four layout variants an event formatter is in. -/
def FormatEventInner.layout : FormatEventInner → LayoutTag
  | .Full _ => .Full
  | .Compact _ => .Compact
  | .Pretty _ => .Pretty
  | .Json _ _ => .Json

/-- The layout a `Formatter` config selects. -/
def Formatter.layout : Formatter → LayoutTag
  | .Full => .Full
  | .Compact => .Compact
  | .Pretty => .Pretty
  | .Json _ => .Json

/-- The five time-source tags. -/
inductive TimeTag where
  | None
  | Local
  | Utc
  | System
  | Uptime
deriving DecidableEq, Repr

/-- Which of the five time-source variants a `FormatTimeInner` is in. -/
def FormatTimeInner.tag : FormatTimeInner → TimeTag
  | .None => .None
  | .Local _ => .Local
  | .Utc _ => .Utc
  | .System => .System
  | .Uptime _ => .Uptime

/-- The time-source variant a `Timer` config selects. -/
def Timer.tag : Timer → TimeTag
  | .None => .None
  | .Local _ => .Local
  | .Utc _ => .Utc
  | .System => .System
  | .Uptime => .Uptime

/-! ## Field-formatter dispatch (src/format.rs lines 149-164) -/

/-- `enum FormatFieldsInner { Default(DefaultFields), Json(JsonFields), Pretty(PrettyFields) }`. -/
inductive FormatFieldsInner where
  | Default
  | Json
  | Pretty
deriving DecidableEq, Repr

/-- `impl From<crate::Formatter> for FormatFieldsInner` (src/format.rs lines 155-164):
`Full`/`Compact` take the default field formatter, `Pretty` the pretty one, and
`Json { .. }` the JSON one, its payload ignored. -/
def FormatFieldsInner.ofFormatter : Formatter → FormatFieldsInner
  | .Full => .Default
  | .Compact => .Default
  | .Pretty => .Pretty
  | .Json _ => .Json

/-! ## Theorems -/

/-- A `Format` value selecting the JSON layout with `flatten_event = some b`
and everything else unset; used to exhibit that the JSON sub-options do
influence the event formatter. -/
def jsonOnlyFormat (b : Bool) : Format :=
  ⟨none, none, none, none, none, none, none,
   some (.Json (some ⟨some b, none, none⟩)), none, none⟩

/-- An environment in which every path is access-denied and the rolling
builder always fails; it exercises the deferred-error paths. -/
def envDenied : Env :=
  ⟨fun _ => .denied, fun _ _ => .error none, 7⟩

/-- Whether a writer spec requests asynchronous (non-blocking) delivery. -/
def Writer.nonBlockingReq : Writer → Option NonBlocking
  | .File f => f.non_blocking
  | .Rolling r => r.non_blocking
  | .Null => none
  | .Stdout => none
  | .Stderr => none

/-- Whether the writer spec's destination opens successfully in `env`
(`Null`/`Stdout`/`Stderr` have nothing to open). -/
def Writer.openOk (w : Writer) (env : Env) : Bool :=
  match w with
  | .File f =>
    match File.open env.fs f with
    | .ok _ => true
    | .error _ => false
  | .Rolling r =>
    match env.rollingBuild r.directory (Rolling.builder r) with
    | .ok _ => true
    | .error _ => false
  | .Null => true
  | .Stdout => true
  | .Stderr => true

/-- An environment in which every path already holds an empty file and the
rolling builder succeeds. -/
def envFile : Env :=
  ⟨fun _ => .file [], fun _ _ => .ok 0, 3⟩

/-- A `File` writer spec requesting asynchronous delivery with all queue
options left at their defaults. -/
def wC3 : Writer :=
  .File ⟨['p'], .Truncate, some ⟨none, none⟩⟩

/-- An environment in which no path exists (every open of an existing file
fails with `NotFound`) and the rolling builder succeeds. -/
def envAbsent : Env :=
  ⟨fun _ => .absent, fun _ _ => .ok 0, 0⟩

/-- Claim C10: field-formatter selection depends only on the layout variant of
the `Formatter` config — `Full` and `Compact` both yield the default field
formatter, `Pretty` the pretty one, and `Json` the JSON one regardless of the
JSON sub-options, which influence only the event formatter. -/
theorem claim_C10 :
    FormatFieldsInner.ofFormatter .Full = .Default
    ∧ FormatFieldsInner.ofFormatter .Compact = .Default
    ∧ FormatFieldsInner.ofFormatter .Pretty = .Pretty
    ∧ (∀ j, FormatFieldsInner.ofFormatter (.Json j) = .Json)
    ∧ (∀ j j', FormatFieldsInner.ofFormatter (.Json j)
        = FormatFieldsInner.ofFormatter (.Json j'))
    ∧ FormatEventInner.ofFormat (jsonOnlyFormat true) 0
        ≠ FormatEventInner.ofFormat (jsonOnlyFormat false) 0 := by
  refine ⟨rfl, rfl, rfl, fun j => rfl, fun j j' => rfl, by decide⟩

/-- Claim C7: converting `Timer::Uptime` captures `Instant::now()` at the
moment of the conversion itself — the constructed time source's zero point is
that instant (elapsed time there is 0), and it measures `t - now` afterwards. -/
theorem claim_C7 (now : Nat) :
    FormatTimeInner.ofTimer .Uptime now = .Uptime ⟨now⟩
    ∧ Uptime.elapsed ⟨now⟩ now = 0
    ∧ (∀ t, Uptime.elapsed ⟨now⟩ t = t - now) := by
  exact ⟨rfl, Nat.sub_self now, fun t => rfl⟩

/-- Claim C4: for `Timer::Local(p)` and `Timer::Utc(p)`, the constructed time
source is the RFC-3339 formatter exactly when `p` is absent or the sentinel
pattern `"%+"`; any other pattern is used as given. -/
theorem claim_C4 (now : Nat) :
    (∀ p : Option Str, p = none ∨ p = some "%+".toList →
      FormatTimeInner.ofTimer (.Local p) now = .Local .rfc_3339
      ∧ FormatTimeInner.ofTimer (.Utc p) now = .Utc .rfc_3339)
    ∧ (∀ s : Str, s ≠ "%+".toList →
      FormatTimeInner.ofTimer (.Local (some s)) now = .Local (.custom s)
      ∧ FormatTimeInner.ofTimer (.Utc (some s)) now = .Utc (.custom s)) := by
  constructor
  · rintro p (rfl | rfl)
    · exact ⟨rfl, rfl⟩
    · exact ⟨by simp [FormatTimeInner.ofTimer], by simp [FormatTimeInner.ofTimer]⟩
  · intro s hs
    refine ⟨?_, ?_⟩ <;>
      (simp only [FormatTimeInner.ofTimer]; rw [if_neg hs])

/-- Witness for claim C4 at the sentinel pattern and at a custom pattern. -/
theorem claim_C4_witness :
    FormatTimeInner.ofTimer (.Local (some "%+".toList)) 0 = .Local .rfc_3339
    ∧ FormatTimeInner.ofTimer (.Utc (some "%Y".toList)) 0 = .Utc (.custom "%Y".toList) := by
  exact ⟨((claim_C4 0).1 (some "%+".toList) (Or.inr rfl)).1,
         ((claim_C4 0).2 "%Y".toList (by decide)).2⟩

/-- Claim C2: a `Deferred` (poisoned) writer fails every `write` and every
`flush`, and each failure wraps `Arc::clone` of the same shared construction
error — the clone is the identical allocation, so any two consecutive writes
observe the identical underlying cause. -/
theorem claim_C2 (a : Arc IoError) (buf₁ buf₂ : Str)
    (os₁ os₂ : Except WriteError Nat) (os₃ : Except WriteError Unit) :
    WriterInner.write (.Deferred a) buf₁ os₁ = .error ⟨(a.val).kind, some (Arc.clone a)⟩
    ∧ WriterInner.flush (.Deferred a) os₃ = .error ⟨(a.val).kind, some (Arc.clone a)⟩
    ∧ Arc.clone a = a
    ∧ (∃ e₁ e₂ : WriteError,
        WriterInner.write (.Deferred a) buf₁ os₁ = .error e₁
        ∧ WriterInner.write (.Deferred a) buf₂ os₂ = .error e₂
        ∧ e₁.cause = some a
        ∧ e₂.cause = e₁.cause) := by
  exact ⟨rfl, rfl, rfl,
    ⟨⟨(a.val).kind, some a⟩, ⟨(a.val).kind, some a⟩, rfl, rfl, rfl, rfl⟩⟩

/-- Applying an optional toggle leaves the layout unchanged whenever the
underlying toggle does. -/
theorem applyOpt_layout (g : FormatEventInner → Bool → FormatEventInner)
    (hg : ∀ e b, (g e b).layout = e.layout) (e : FormatEventInner) (o : Option Bool) :
    (applyOpt g e o).layout = e.layout := by
  cases o with
  | some b => exact hg e b
  | none => rfl

/-- Each of the seven inclusion toggles preserves the active layout variant. -/
theorem with_toggles_layout (e : FormatEventInner) (b : Bool) :
    (e.with_ansi b).layout = e.layout
    ∧ (e.with_target b).layout = e.layout
    ∧ (e.with_level b).layout = e.layout
    ∧ (e.with_thread_ids b).layout = e.layout
    ∧ (e.with_thread_names b).layout = e.layout
    ∧ (e.with_file b).layout = e.layout
    ∧ (e.with_line_number b).layout = e.layout := by
  cases e <;> exact ⟨rfl, rfl, rfl, rfl, rfl, rfl, rfl⟩

/-- Claim C8: every `Format` converts to exactly one of the four event-format
variants, selected solely by the `formatter` field (defaulting to `Full`);
none of the seven inclusion toggles changes the active variant; and every
`Timer` converts to exactly the matching one of the five time-source variants
— both dispatches are closed and exhaustive. -/
theorem claim_C8 (f : Format) (now : Nat) :
    (FormatEventInner.ofFormat f now).layout = (f.formatter.getD .Full).layout
    ∧ (∀ e b, (FormatEventInner.with_ansi e b).layout = e.layout)
    ∧ (∀ e b, (FormatEventInner.with_target e b).layout = e.layout)
    ∧ (∀ e b, (FormatEventInner.with_level e b).layout = e.layout)
    ∧ (∀ e b, (FormatEventInner.with_thread_ids e b).layout = e.layout)
    ∧ (∀ e b, (FormatEventInner.with_thread_names e b).layout = e.layout)
    ∧ (∀ e b, (FormatEventInner.with_file e b).layout = e.layout)
    ∧ (∀ e b, (FormatEventInner.with_line_number e b).layout = e.layout)
    ∧ (∀ t : Timer, (FormatTimeInner.ofTimer t now).tag = t.tag) := by
  refine ⟨?_, fun e b => (with_toggles_layout e b).1,
    fun e b => (with_toggles_layout e b).2.1,
    fun e b => (with_toggles_layout e b).2.2.1,
    fun e b => (with_toggles_layout e b).2.2.2.1,
    fun e b => (with_toggles_layout e b).2.2.2.2.1,
    fun e b => (with_toggles_layout e b).2.2.2.2.2.1,
    fun e b => (with_toggles_layout e b).2.2.2.2.2.2, ?_⟩
  · unfold FormatEventInner.ofFormat
    rw [applyOpt_layout _ (fun e b => (with_toggles_layout e b).2.2.2.2.2.2),
        applyOpt_layout _ (fun e b => (with_toggles_layout e b).2.2.2.2.2.1),
        applyOpt_layout _ (fun e b => (with_toggles_layout e b).2.2.2.2.1),
        applyOpt_layout _ (fun e b => (with_toggles_layout e b).2.2.2.1),
        applyOpt_layout _ (fun e b => (with_toggles_layout e b).2.2.1),
        applyOpt_layout _ (fun e b => (with_toggles_layout e b).2.1),
        applyOpt_layout _ (fun e b => (with_toggles_layout e b).1)]
    cases f.formatter with
    | none => rfl
    | some fm => cases fm <;> rfl
  · intro t
    cases t with
    | Local p => cases p <;> rfl
    | Utc p => cases p <;> rfl
    | _ => rfl

/-- A tag parser consumes its own text and returns the rest verbatim. -/
theorem tag_append (t r : Str) : tag t (t ++ r) = some r := by
  unfold tag
  rw [if_pos, List.drop_left]
  exact List.isPrefixOf_iff_prefix.mpr ⟨r, rfl⟩

/-- A tag parser fails as soon as the first characters differ. -/
theorem tag_head_ne (c : Char) (ct : Str) (d : Char) (ds : Str)
    (h : (c == d) = false) : tag (c :: ct) (d :: ds) = none := by
  unfold tag
  rw [if_neg]
  simp [List.isPrefixOf, h]

/-- Claim C9: parsing a writer directive rejects an empty file path — the
string `file=` fails with a parse error — while `null`, `stdout`, `stderr`,
and `file=`/`rolling=` followed by a non-empty remainder parse into the
corresponding `Writer` variant, the remainder taken verbatim as the path or
directory. -/
theorem claim_C9 :
    Writer.fromStr "file=".toList = .error ⟨Writer.PARSE_HELP⟩
    ∧ Writer.fromStr "null".toList = .ok .Null
    ∧ Writer.fromStr "stdout".toList = .ok .Stdout
    ∧ Writer.fromStr "stderr".toList = .ok .Stderr
    ∧ (∀ r : Str, r ≠ [] →
        Writer.fromStr ("file=".toList ++ r) = .ok (.File ⟨r, .Truncate, none⟩))
    ∧ (∀ r : Str, r ≠ [] →
        Writer.fromStr ("rolling=".toList ++ r) = .ok (.Rolling ⟨r, none, none⟩)) := by
  refine ⟨rfl, rfl, rfl, rfl, ?_, ?_⟩
  · intro r hr
    show Writer.fromStr (['f', 'i', 'l', 'e', '='] ++ r) = _
    have h1 : tag ['n', 'u', 'l', 'l'] ('f' :: 'i' :: 'l' :: 'e' :: '=' :: r) = none :=
      tag_head_ne 'n' _ 'f' _ rfl
    have h2 : tag ['n', 'o', 'n', 'e'] ('f' :: 'i' :: 'l' :: 'e' :: '=' :: r) = none :=
      tag_head_ne 'n' _ 'f' _ rfl
    have h3 : tag ['s', 't', 'd', 'o', 'u', 't'] ('f' :: 'i' :: 'l' :: 'e' :: '=' :: r) = none :=
      tag_head_ne 's' _ 'f' _ rfl
    have h4 : tag ['s', 't', 'd', 'e', 'r', 'r'] ('f' :: 'i' :: 'l' :: 'e' :: '=' :: r) = none :=
      tag_head_ne 's' _ 'f' _ rfl
    have h5 : tag ['f', 'i', 'l', 'e', '='] ('f' :: 'i' :: 'l' :: 'e' :: '=' :: r) = some r := by
      simpa using tag_append ['f', 'i', 'l', 'e', '='] r
    simp [Writer.fromStr, Writer.altStep, h1, h2, h3, h4, h5, hr]
  · intro r hr
    show Writer.fromStr (['r', 'o', 'l', 'l', 'i', 'n', 'g', '='] ++ r) = _
    have h1 : tag ['n', 'u', 'l', 'l'] ('r' :: 'o' :: 'l' :: 'l' :: 'i' :: 'n' :: 'g' :: '=' :: r) = none :=
      tag_head_ne 'n' _ 'r' _ rfl
    have h2 : tag ['n', 'o', 'n', 'e'] ('r' :: 'o' :: 'l' :: 'l' :: 'i' :: 'n' :: 'g' :: '=' :: r) = none :=
      tag_head_ne 'n' _ 'r' _ rfl
    have h3 : tag ['s', 't', 'd', 'o', 'u', 't'] ('r' :: 'o' :: 'l' :: 'l' :: 'i' :: 'n' :: 'g' :: '=' :: r) = none :=
      tag_head_ne 's' _ 'r' _ rfl
    have h4 : tag ['s', 't', 'd', 'e', 'r', 'r'] ('r' :: 'o' :: 'l' :: 'l' :: 'i' :: 'n' :: 'g' :: '=' :: r) = none :=
      tag_head_ne 's' _ 'r' _ rfl
    have h5 : tag ['f', 'i', 'l', 'e', '='] ('r' :: 'o' :: 'l' :: 'l' :: 'i' :: 'n' :: 'g' :: '=' :: r) = none :=
      tag_head_ne 'f' _ 'r' _ rfl
    have h6 : tag ['r', 'o', 'l', 'l', 'i', 'n', 'g', '='] ('r' :: 'o' :: 'l' :: 'l' :: 'i' :: 'n' :: 'g' :: '=' :: r) = some r := by
      simpa using tag_append ['r', 'o', 'l', 'l', 'i', 'n', 'g', '='] r
    simp [Writer.fromStr, Writer.altStep, h1, h2, h3, h4, h5, h6]

/-- Witness for claim C9 at the one-character path and directory `x`. -/
theorem claim_C9_witness :
    Writer.fromStr ("file=".toList ++ ['x']) = .ok (.File ⟨['x'], .Truncate, none⟩)
    ∧ Writer.fromStr ("rolling=".toList ++ ['x']) = .ok (.Rolling ⟨['x'], none, none⟩) := by
  exact ⟨claim_C9.2.2.2.2.1 ['x'] (by decide), claim_C9.2.2.2.2.2 ['x'] (by decide)⟩

/-- Claim C5: building the asynchronous delivery queue from a `NonBlocking`
config maps `Block` to a non-lossy queue (a producer at a full queue waits,
nothing is lost or counted dropped) and `Drop` to a lossy queue (a record
arriving at a full queue is discarded and counted); `buffer_length` sets the
buffered-lines capacity when present, and absent fields keep the builder's
defaults. -/
theorem claim_C5 (cfg : NonBlocking) (dest : Dest) :
    (cfg.behaviour = some .Block → ((cfg.build dest).1).cfg.lossy = false)
    ∧ (cfg.behaviour = some .Drop → ((cfg.build dest).1).cfg.lossy = true)
    ∧ (∀ n, cfg.buffer_length = some n →
        ((cfg.build dest).1).cfg.buffered_lines_limit = n)
    ∧ (cfg.buffer_length = none →
        ((cfg.build dest).1).cfg.buffered_lines_limit
          = NonBlockingBuilder.default.buffered_lines_limit)
    ∧ (cfg.behaviour = none →
        ((cfg.build dest).1).cfg.lossy = NonBlockingBuilder.default.lossy)
    ∧ (Channel.new ((cfg.build dest).1).cfg).cap
        = ((cfg.build dest).1).cfg.buffered_lines_limit
    ∧ (∀ (q : Channel) (r : Str), q.buf.length < q.cap →
        Channel.enqueue ((cfg.build dest).1).cfg.lossy q r
          = ({ q with buf := q.buf ++ [r] }, .enqueued))
    ∧ (∀ (q : Channel) (r : Str), cfg.behaviour = some .Block →
        ¬ q.buf.length < q.cap →
        Channel.enqueue ((cfg.build dest).1).cfg.lossy q r = (q, .blocked))
    ∧ (∀ (q : Channel) (r : Str), cfg.behaviour = some .Block →
        (Channel.enqueue ((cfg.build dest).1).cfg.lossy q r).1.dropped = q.dropped)
    ∧ (∀ (q : Channel) (r : Str), cfg.behaviour = some .Drop →
        ¬ q.buf.length < q.cap →
        Channel.enqueue ((cfg.build dest).1).cfg.lossy q r
          = ({ q with dropped := q.dropped + 1 }, .dropped))
    ∧ (∀ (q : Channel) (r : Str), cfg.behaviour = some .Block →
        q.buf.length = q.cap → 0 < q.cap →
        Channel.enqueue ((cfg.build dest).1).cfg.lossy (Channel.dequeue q) r
          = ({ Channel.dequeue q with buf := q.buf.tail ++ [r] }, .enqueued)) := by
  have hb : ∀ h : cfg.behaviour = some .Block, ((cfg.build dest).1).cfg.lossy = false := by
    intro h
    cases hbl : cfg.buffer_length <;>
      simp [NonBlocking.build, h, hbl]
  have hd : ∀ h : cfg.behaviour = some .Drop, ((cfg.build dest).1).cfg.lossy = true := by
    intro h
    cases hbl : cfg.buffer_length <;>
      simp [NonBlocking.build, h, hbl]
  refine ⟨hb, hd, ?_, ?_, ?_, rfl, ?_, ?_, ?_, ?_, ?_⟩
  · intro n hn
    cases hbe : cfg.behaviour with
    | none => simp [NonBlocking.build, hn, hbe]
    | some b => cases b <;> simp [NonBlocking.build, hn, hbe]
  · intro hn
    cases hbe : cfg.behaviour with
    | none => simp [NonBlocking.build, hn, hbe]
    | some b => cases b <;> simp [NonBlocking.build, hn, hbe]
  · intro hbe
    cases hbl : cfg.buffer_length <;>
      simp [NonBlocking.build, hbe, hbl]
  · intro q r hlt
    simp [Channel.enqueue, hlt]
  · intro q r h hfull
    simp [Channel.enqueue, hfull, hb h]
  · intro q r h
    by_cases hlt : q.buf.length < q.cap <;>
      simp [Channel.enqueue, hlt, hb h]
  · intro q r h hfull
    simp [Channel.enqueue, hfull, hd h]
  · intro q r h hfull hpos
    have hlt : (Channel.dequeue q).buf.length < (Channel.dequeue q).cap := by
      simp [Channel.dequeue, List.length_tail]
      omega
    simpa [Channel.dequeue] using
      (by simp [Channel.enqueue, hlt] :
        Channel.enqueue ((cfg.build dest).1).cfg.lossy (Channel.dequeue q) r
          = ({ Channel.dequeue q with buf := (Channel.dequeue q).buf ++ [r] }, .enqueued))

/-- Witness for claim C5: a two-slot queue under each policy, exercised full. -/
theorem claim_C5_witness :
    ((NonBlocking.mk (some 2) (some .Block)).build (.rolling 0)).1.cfg.lossy = false
    ∧ ((NonBlocking.mk (some 2) (some .Drop)).build (.rolling 0)).1.cfg.buffered_lines_limit = 2
    ∧ Channel.enqueue ((NonBlocking.mk (some 2) (some .Block)).build (.rolling 0)).1.cfg.lossy
        ⟨2, [['a'], ['b']], 0⟩ ['c'] = (⟨2, [['a'], ['b']], 0⟩, .blocked)
    ∧ Channel.enqueue ((NonBlocking.mk (some 2) (some .Drop)).build (.rolling 0)).1.cfg.lossy
        ⟨2, [['a'], ['b']], 0⟩ ['c'] = (⟨2, [['a'], ['b']], 1⟩, .dropped) := by
  refine ⟨(claim_C5 ⟨some 2, some .Block⟩ (.rolling 0)).1 rfl,
    (claim_C5 ⟨some 2, some .Drop⟩ (.rolling 0)).2.2.1 2 rfl,
    (claim_C5 ⟨some 2, some .Block⟩ (.rolling 0)).2.2.2.2.2.2.2.1
      ⟨2, [['a'], ['b']], 0⟩ ['c'] rfl (by decide),
    (claim_C5 ⟨some 2, some .Drop⟩ (.rolling 0)).2.2.2.2.2.2.2.2.2.1
      ⟨2, [['a'], ['b']], 0⟩ ['c'] rfl (by decide)⟩

/-- Claim C1: resolution in deferred mode (`defer = true`) always returns
`Ok` for every writer configuration; a failed file open or rolling-directory
build is captured into a reference-counted `Deferred` writer with no guard,
so `MakeWriter::new`'s `expect("errors have been deferred")` can never panic. -/
theorem claim_C1 (env : Env) (w : Writer) :
    (∃ v, MakeWriterInner.new w true env = .ok v)
    ∧ (∃ v, MakeWriter.new w env = some v)
    ∧ (∀ (f : File) (e : IoError), File.open env.fs f = .error e →
        MakeWriterInner.new (.File f) true env =
          .ok ((.Deferred ⟨env.arcAddr, io_extra.context e (fileErrMsg f.path)⟩, none), env.fs))
    ∧ (∀ (r : Rolling) (e : InitError),
        env.rollingBuild r.directory (Rolling.builder r) = .error e →
        MakeWriterInner.new (.Rolling r) true env =
          .ok ((.Deferred ⟨env.arcAddr, rollingErr r.directory e⟩, none), env.fs)) := by
  have h1 : ∃ v, MakeWriterInner.new w true env = .ok v := by
    cases w with
    | Null => exact ⟨_, rfl⟩
    | Stdout => exact ⟨_, rfl⟩
    | Stderr => exact ⟨_, rfl⟩
    | File f =>
      cases h : File.open env.fs f with
      | ok v =>
        obtain ⟨it, fs'⟩ := v
        cases hnb : f.non_blocking with
        | some nb => exact ⟨_, by simp [MakeWriterInner.new, h, hnb]; rfl⟩
        | none => exact ⟨_, by simp [MakeWriterInner.new, h, hnb]; rfl⟩
      | error e => exact ⟨_, by simp [MakeWriterInner.new, h]; rfl⟩
    | Rolling r =>
      cases h : env.rollingBuild r.directory (Rolling.builder r) with
      | ok it =>
        cases hnb : r.non_blocking with
        | some nb => exact ⟨_, by simp [MakeWriterInner.new, h, hnb]; rfl⟩
        | none => exact ⟨_, by simp [MakeWriterInner.new, h, hnb]; rfl⟩
      | error e => exact ⟨_, by simp [MakeWriterInner.new, h]; rfl⟩
  refine ⟨h1, ?_, ?_, ?_⟩
  · obtain ⟨v, hv⟩ := h1
    exact ⟨v, by simp [MakeWriter.new, hv, Except.toOption]⟩
  · intro f e h
    simp [MakeWriterInner.new, h]
  · intro r e h
    simp [MakeWriterInner.new, h]

/-- Witness for claim C1: in `envDenied` both a `File` and a `Rolling` writer
resolve (deferred) to an `Ok` poisoned writer instead of an error. -/
theorem claim_C1_witness :
    MakeWriterInner.new (.File ⟨['p'], .Truncate, none⟩) true envDenied
      = .ok ((.Deferred ⟨7, io_extra.context (.os .permissionDenied)
          (fileErrMsg ['p'])⟩, none), envDenied.fs)
    ∧ MakeWriterInner.new (.Rolling ⟨['d'], none, none⟩) true envDenied
      = .ok ((.Deferred ⟨7, rollingErr ['d'] none⟩, none), envDenied.fs) := by
  exact ⟨(claim_C1 envDenied (.File ⟨['p'], .Truncate, none⟩)).2.2.1
           ⟨['p'], .Truncate, none⟩ (.os .permissionDenied) rfl,
         (claim_C1 envDenied (.Rolling ⟨['d'], none, none⟩)).2.2.2
           ⟨['d'], none, none⟩ none rfl⟩

/-- `NonBlocking::build` returns the handle and the guard sharing one builder
configuration and wrapping the given destination. -/
theorem NonBlocking.build_pair (nb : NonBlocking) (x : Dest) :
    ∃ b, nb.build x = (⟨b, x⟩, ⟨b, x⟩) :=
  ⟨_, rfl⟩

/-- Claim C3: a successful resolution hands back a guard owning a background
delivery worker exactly when the writer spec is File or Rolling with
`non_blocking` requested and the destination opened successfully; in every
other case (Null, Stdout, Stderr, synchronous File/Rolling, or a deferred
construction failure) the guard is empty.  When present, the guard owns the
same worker the returned non-blocking writer uses. -/
theorem claim_C3 (w : Writer) (defer : Bool) (env : Env)
    (mw : MakeWriterInner) (og : Option GuardInner) (fs' : Fs)
    (h : MakeWriterInner.new w defer env = .ok ((mw, og), fs')) :
    og.isSome = (w.nonBlockingReq.isSome && w.openOk env)
    ∧ (∀ g, og = some g →
        ∃ b d, g = .NonBlocking ⟨b, d⟩ ∧ mw = .NonBlocking ⟨b, d⟩) := by
  cases w with
  | Null =>
    simp [MakeWriterInner.new] at h
    obtain ⟨⟨hmw, hog⟩, hfs⟩ := h
    subst hog
    simp [Writer.nonBlockingReq, Writer.openOk]
  | Stdout =>
    simp [MakeWriterInner.new] at h
    obtain ⟨⟨hmw, hog⟩, hfs⟩ := h
    subst hog
    simp [Writer.nonBlockingReq, Writer.openOk]
  | Stderr =>
    simp [MakeWriterInner.new] at h
    obtain ⟨⟨hmw, hog⟩, hfs⟩ := h
    subst hog
    simp [Writer.nonBlockingReq, Writer.openOk]
  | File f =>
    cases ho : File.open env.fs f with
    | ok v =>
      obtain ⟨it, fsv⟩ := v
      cases hnb : f.non_blocking with
      | some nb =>
        obtain ⟨b, hb⟩ := NonBlocking.build_pair nb (.file it)
        simp [MakeWriterInner.new, ho, hnb, hb] at h
        obtain ⟨⟨hmw, hog⟩, hfs⟩ := h
        subst hmw hog
        refine ⟨by simp [Writer.nonBlockingReq, Writer.openOk, hnb, ho], ?_⟩
        intro g hg
        obtain rfl : GuardInner.NonBlocking ⟨b, .file it⟩ = g := Option.some.inj hg
        exact ⟨b, .file it, rfl, rfl⟩
      | none =>
        simp [MakeWriterInner.new, ho, hnb] at h
        obtain ⟨⟨hmw, hog⟩, hfs⟩ := h
        subst hog
        simp [Writer.nonBlockingReq, Writer.openOk, hnb, ho]
    | error e =>
      cases defer with
      | true =>
        simp [MakeWriterInner.new, ho] at h
        obtain ⟨⟨hmw, hog⟩, hfs⟩ := h
        subst hog
        simp [Writer.nonBlockingReq, Writer.openOk, ho]
      | false =>
        simp [MakeWriterInner.new, ho] at h
  | Rolling r =>
    cases ho : env.rollingBuild r.directory (Rolling.builder r) with
    | ok it =>
      cases hnb : r.non_blocking with
      | some nb =>
        obtain ⟨b, hb⟩ := NonBlocking.build_pair nb (.rolling it)
        simp [MakeWriterInner.new, ho, hnb, hb] at h
        obtain ⟨⟨hmw, hog⟩, hfs⟩ := h
        subst hmw hog
        refine ⟨by simp [Writer.nonBlockingReq, Writer.openOk, hnb, ho], ?_⟩
        intro g hg
        obtain rfl : GuardInner.NonBlocking ⟨b, .rolling it⟩ = g := Option.some.inj hg
        exact ⟨b, .rolling it, rfl, rfl⟩
      | none =>
        simp [MakeWriterInner.new, ho, hnb] at h
        obtain ⟨⟨hmw, hog⟩, hfs⟩ := h
        subst hog
        simp [Writer.nonBlockingReq, Writer.openOk, hnb, ho]
    | error e =>
      cases defer with
      | true =>
        simp [MakeWriterInner.new, ho] at h
        obtain ⟨⟨hmw, hog⟩, hfs⟩ := h
        subst hog
        simp [Writer.nonBlockingReq, Writer.openOk, ho]
      | false =>
        simp [MakeWriterInner.new, ho] at h

/-- Witness for claim C3: an async `File` spec that opens successfully yields
a present guard owning the worker the writer uses. -/
theorem claim_C3_witness :
    (some (GuardInner.NonBlocking ⟨⟨128000, true⟩, .file ⟨['p'], false⟩⟩)
        : Option GuardInner).isSome
      = (wC3.nonBlockingReq.isSome && wC3.openOk envFile)
    ∧ (∀ g, (some (GuardInner.NonBlocking ⟨⟨128000, true⟩, .file ⟨['p'], false⟩⟩)
        : Option GuardInner) = some g →
        ∃ b d, g = .NonBlocking ⟨b, d⟩
          ∧ MakeWriterInner.NonBlocking ⟨⟨128000, true⟩, .file ⟨['p'], false⟩⟩
              = .NonBlocking ⟨b, d⟩) :=
  claim_C3 wC3 true envFile
    (.NonBlocking ⟨⟨128000, true⟩, .file ⟨['p'], false⟩⟩)
    (some (.NonBlocking ⟨⟨128000, true⟩, .file ⟨['p'], false⟩⟩))
    (Fs.update envFile.fs ['p'] (.file [])) rfl

/-- Claim C6: a `File` writer spec with `Truncate` opens the path with
create-or-truncate semantics (created if missing, emptied if present), while
`Append` opens the existing file in append-only mode without creating it
(a missing file is `NotFound`); failure to open the path is the only error
condition, surfaced immediately when `defer = false` or captured into a
poisoned writer when `defer = true`. -/
theorem claim_C6 (f : File) (env : Env) (defer : Bool) :
    (f.behaviour = .Truncate → env.fs f.path ≠ .denied →
      ∃ mwg, MakeWriterInner.new (.File f) defer env
        = .ok (mwg, Fs.update env.fs f.path (.file [])))
    ∧ (f.behaviour = .Append → (∃ d, env.fs f.path = .file d) →
      ∃ mwg, MakeWriterInner.new (.File f) defer env = .ok (mwg, env.fs))
    ∧ (f.behaviour = .Append → env.fs f.path = .absent →
      File.open env.fs f = .error (.os .notFound)
      ∧ (defer = false → MakeWriterInner.new (.File f) defer env
          = .error ⟨io_extra.context (.os .notFound) (fileErrMsg f.path)⟩)
      ∧ (defer = true → MakeWriterInner.new (.File f) defer env
          = .ok ((.Deferred ⟨env.arcAddr,
              io_extra.context (.os .notFound) (fileErrMsg f.path)⟩, none), env.fs)))
    ∧ (∀ h fs₂, File.open env.fs f = .ok (h, fs₂) →
      ∃ mw og, MakeWriterInner.new (.File f) defer env = .ok ((mw, og), fs₂)
        ∧ ∀ a, mw ≠ .Deferred a)
    ∧ (∀ e, File.open env.fs f = .error e →
      (defer = false → MakeWriterInner.new (.File f) defer env
        = .error ⟨io_extra.context e (fileErrMsg f.path)⟩)
      ∧ (defer = true → MakeWriterInner.new (.File f) defer env
        = .ok ((.Deferred ⟨env.arcAddr,
            io_extra.context e (fileErrMsg f.path)⟩, none), env.fs))) := by
  refine ⟨?_, ?_, ?_, ?_, ?_⟩
  · intro hb hd
    have ho : File.open env.fs f = .ok (⟨f.path, false⟩, Fs.update env.fs f.path (.file [])) := by
      cases henv : env.fs f.path with
      | absent => simp [File.open, fsCreate, hb, henv]
      | file c => simp [File.open, fsCreate, hb, henv]
      | denied => exact absurd henv hd
    cases hnb : f.non_blocking with
    | some nb =>
      refine ⟨(.NonBlocking (nb.build (.file ⟨f.path, false⟩)).1,
        some (.NonBlocking (nb.build (.file ⟨f.path, false⟩)).2)), ?_⟩
      simp [MakeWriterInner.new, ho, hnb]
    | none =>
      refine ⟨(.File ⟨f.path, false⟩, none), ?_⟩
      simp [MakeWriterInner.new, ho, hnb]
  · rintro hb ⟨d, hd⟩
    have ho : File.open env.fs f = .ok (⟨f.path, true⟩, env.fs) := by
      simp [File.open, fsOpenAppend, hb, hd]
    cases hnb : f.non_blocking with
    | some nb =>
      refine ⟨(.NonBlocking (nb.build (.file ⟨f.path, true⟩)).1,
        some (.NonBlocking (nb.build (.file ⟨f.path, true⟩)).2)), ?_⟩
      simp [MakeWriterInner.new, ho, hnb]
    | none =>
      refine ⟨(.File ⟨f.path, true⟩, none), ?_⟩
      simp [MakeWriterInner.new, ho, hnb]
  · intro hb hd
    have ho : File.open env.fs f = .error (.os .notFound) := by
      simp [File.open, fsOpenAppend, hb, hd]
    refine ⟨ho, ?_, ?_⟩ <;> (rintro rfl; simp [MakeWriterInner.new, ho])
  · intro h fs₂ ho
    cases hnb : f.non_blocking with
    | some nb =>
      refine ⟨.NonBlocking (nb.build (.file h)).1,
        some (.NonBlocking (nb.build (.file h)).2), ?_, ?_⟩
      · simp [MakeWriterInner.new, ho, hnb]
      · intro a
        simp
    | none =>
      refine ⟨.File h, none, ?_, ?_⟩
      · simp [MakeWriterInner.new, ho, hnb]
      · intro a
        simp
  · intro e ho
    refine ⟨?_, ?_⟩ <;> (rintro rfl; simp [MakeWriterInner.new, ho])

/-- Witness for claim C6: truncate-opening a missing path succeeds and leaves
an empty file, while append-opening the same missing path is an immediate
`NotFound` error under `try_new` semantics. -/
theorem claim_C6_witness :
    (∃ mwg, MakeWriterInner.new (.File ⟨['p'], .Truncate, none⟩) false envAbsent
      = .ok (mwg, Fs.update envAbsent.fs ['p'] (.file [])))
    ∧ MakeWriterInner.new (.File ⟨['p'], .Append, none⟩) false envAbsent
      = .error ⟨io_extra.context (.os .notFound) (fileErrMsg ['p'])⟩ :=
  ⟨(claim_C6 ⟨['p'], .Truncate, none⟩ envAbsent false).1 rfl (by decide),
   ((claim_C6 ⟨['p'], .Append, none⟩ envAbsent false).2.2.1 rfl rfl).2.1 rfl⟩

end TracingConfig
